import Mathlib

/-!
Verification of the classcartFrontend shopping-cart engine.

The repository is a three-page Vue 2 shopping-cart demo:

* `src/unnamed/part_000` — the catalog page: seeded product list, search and
  sort (`filteredProducts`), `addToCart`, `removeFromCart`, cart persistence;
* `src/cart.js` — the cart page: `total`, `removeFromCart`, `loadCart`,
  `validateCheckoutForm`, `submitCheckout`, `processCheckout`;
* `src/checkout.js` — the checkout page: `total`, `loadCart`, `completeOrder`.

This file shallowly embeds that code.  JavaScript numbers that arise here are
either small integers (spaces, quantities, ids) modelled as `Int`/`Nat`, or
IEEE-754 binary64 doubles (prices parsed by `parseFloat`, and the sums and
products built from them).  A finite double is represented by the exact
rational value it denotes, as `Option ℚ` where `none` plays the role of
`NaN` (every arithmetic operation that touches `NaN` yields `NaN`, which
`none` absorbs the same way); every operation that produces a fresh double —
`parseFloat`, `+`, `*` — rounds its exact result to the nearest
representable binary64 value, ties to even, via `roundDouble` below, so that
double addition is (faithfully) not associative.
-/

/-- A catalog product, as seeded in the `products` array of the catalog page.
The field `Location` keeps the source's capitalised spelling. -/
structure Product where
  id : Nat
  name : String
  Location : String
  price : String
  spaces : Int
  quantity : Int
  inCart : Bool
deriving DecidableEq

/-- A cart entry.  `addToCart` builds it as a spread copy of the product
(`...product`) plus the chosen `cartQuantity`, so it carries snapshots of all
product fields as they were at push time. -/
structure CartItem where
  id : Nat
  name : String
  Location : String
  price : String
  spaces : Int
  quantity : Int
  inCart : Bool
  cartQuantity : Int
deriving DecidableEq

/-- The static product catalog seeded in `data.products` of the catalog page. -/
def seedProducts : List Product :=
  [ { id := 1, name := "Mobile App Development", Location := "Birmingham",
      price := "£88.99", spaces := 10, quantity := 1, inCart := false },
    { id := 2, name := "Artificial Intelligence & Machine Learning", Location := "West-Ham",
      price := "£149.99", spaces := 8, quantity := 1, inCart := false },
    { id := 3, name := "Cloud Computing with AWS or Azure Lab Course", Location := "Newcastle",
      price := "£99.99", spaces := 5, quantity := 1, inCart := false },
    { id := 4, name := "Cybersecurity Basics", Location := "Bristol",
      price := "£250", spaces := 5, quantity := 1, inCart := false },
    { id := 5, name := "UI/UX Design Principles", Location := "Brentford",
      price := "£220", spaces := 5, quantity := 1, inCart := false },
    { id := 6, name := "Project Management", Location := "Manchester",
      price := "£250", spaces := 5, quantity := 1, inCart := false },
    { id := 7, name := "Computer Science", Location := "Villa-park",
      price := "£200", spaces := 10, quantity := 1, inCart := false },
    { id := 8, name := "Database Design & SQL", Location := "Leicester",
      price := "£199", spaces := 7, quantity := 1, inCart := false },
    { id := 9, name := "Backend Development with Node.js", Location := "Norwich",
      price := "£209", spaces := 5, quantity := 1, inCart := false },
    { id := 10, name := "Python Programming", Location := "Liverpool",
      price := "£150", spaces := 12, quantity := 1, inCart := false } ]

/-! ### JavaScript number parsing

`parseFloat` and `parseInt` skip leading whitespace, read an optional sign and
then the longest numeric prefix; they return `NaN` (here `none`) when no digit
is found.  (`parseFloat`'s `Infinity` literal and `parseInt`'s radix prefixes
never occur in this repository and are not modelled.) -/

/-- Longest leading run of decimal digits, and the rest of the characters. -/
def takeDigits : List Char → List Char × List Char
  | [] => ([], [])
  | c :: cs =>
    if c.isDigit then
      let (d, r) := takeDigits cs
      (c :: d, r)
    else ([], c :: cs)

/-- Digits to a natural number, most significant first. -/
def digitsToNat (ds : List Char) : Nat :=
  ds.foldl (fun a c => 10 * a + (c.toNat - 48)) 0

/-- Optional leading sign; returns `true` when negative. -/
def readSign : List Char → Bool × List Char
  | '-' :: cs => (true, cs)
  | '+' :: cs => (false, cs)
  | cs => (false, cs)

/-- Optional exponent part `e`/`E`, sign, digits; `0` when absent/invalid
(in that case `parseFloat` simply stops before the `e`). -/
def readExponent (cs : List Char) : Int :=
  match cs with
  | 'e' :: rest =>
    let (neg, rest2) := readSign rest
    let (ds, _) := takeDigits rest2
    if ds = [] then 0 else if neg then -(digitsToNat ds : Int) else (digitsToNat ds : Int)
  | 'E' :: rest =>
    let (neg, rest2) := readSign rest
    let (ds, _) := takeDigits rest2
    if ds = [] then 0 else if neg then -(digitsToNat ds : Int) else (digitsToNat ds : Int)
  | _ => 0

/-! ### Binary64 rounding

JavaScript numbers are IEEE-754 binary64 values.  `roundDouble` rounds an
exact rational to the nearest value of the form `m * 2 ^ e` with
`|m| < 2 ^ 53`, ties to even — correct rounding for the whole normal range.
Overflow to infinity and subnormal underflow lie far outside every magnitude
this development evaluates and are not modelled.  (The recursions are
structural so that the kernel can evaluate them.) -/

/-- Floor of the base-2 logarithm, with a fuel argument bounding the
recursion depth; calling with fuel `n` always suffices. -/
def log2Fuel : Nat → Nat → Nat
  | 0, _ => 0
  | fuel + 1, n => if 2 ≤ n then log2Fuel fuel (n / 2) + 1 else 0

/-- Floor of the base-2 logarithm of a positive natural (0 for 0 and 1). -/
def natFloorLog2 (n : Nat) : Nat := log2Fuel n n

/-- Nearest integer to `num / den` (`den` positive), ties to even. -/
def roundHalfEven (num den : Nat) : Nat :=
  let q := num / den
  let r := num % den
  if 2 * r < den then q
  else if den < 2 * r then q + 1
  else if q % 2 = 0 then q else q + 1

/-- Binary64 rounding of a positive rational: locate the exponent `e` with
`2 ^ e ≤ q < 2 ^ (e + 1)`, scale `q` to `[2 ^ 52, 2 ^ 53)` and round the
53-bit significand ties-to-even. -/
def roundDoublePos (q : ℚ) : ℚ :=
  let n := q.num.toNat
  let d := q.den
  let a := natFloorLog2 n
  let b := natFloorLog2 d
  let e : Int :=
    if b ≤ a then
      (if d * 2 ^ (a - b) ≤ n then ((a : Int) - b) else ((a : Int) - b) - 1)
    else
      (if d ≤ n * 2 ^ (b - a) then ((a : Int) - b) else ((a : Int) - b) - 1)
  let t : Int := 52 - e
  let m : Nat :=
    if 0 ≤ t then roundHalfEven (n * 2 ^ t.toNat) d
    else roundHalfEven n (d * 2 ^ (-t).toNat)
  if 0 ≤ e - 52 then (m : ℚ) * 2 ^ (e - 52).toNat
  else (m : ℚ) / 2 ^ (52 - e).toNat

/-- Correct rounding of a rational to the nearest IEEE-754 binary64 value
(ties to even), the result being that value's exact rational. -/
def roundDouble (q : ℚ) : ℚ :=
  if q = 0 then 0
  else if 0 < q then roundDoublePos q
  else -roundDoublePos (-q)

/-- Model of JavaScript `parseFloat`: `none` is `NaN`, and a parsed literal
denotes the binary64 value nearest to its exact decimal reading. -/
def parseFloatJS (s : String) : Option ℚ :=
  let cs0 := s.toList.dropWhile Char.isWhitespace
  let (neg, cs1) := readSign cs0
  let (ip, cs2) := takeDigits cs1
  match cs2 with
  | '.' :: afterDot =>
    let (fp, cs3) := takeDigits afterDot
    if ip = [] ∧ fp = [] then none
    else
      let ex := readExponent cs3
      let mant : ℚ := (digitsToNat ip : ℚ) + (digitsToNat fp : ℚ) / ((10 : ℚ) ^ fp.length)
      let v := mant * (10 : ℚ) ^ ex
      some (roundDouble (if neg then -v else v))
  | _ =>
    if ip = [] then none
    else
      let ex := readExponent cs2
      let v := (digitsToNat ip : ℚ) * (10 : ℚ) ^ ex
      some (roundDouble (if neg then -v else v))

/-- Model of JavaScript `parseInt` (radix 10): `none` is `NaN`. -/
def parseIntJS (s : String) : Option Int :=
  let cs0 := s.toList.dropWhile Char.isWhitespace
  let (neg, cs1) := readSign cs0
  let (ds, _) := takeDigits cs1
  if ds = [] then none
  else some (if neg then -(digitsToNat ds : Int) else (digitsToNat ds : Int))

/-- `String.prototype.replace` with a one-character string pattern removes the
first occurrence of that character; this models `s.replace(c, '')`. -/
def removeFirstChar (c : Char) : List Char → List Char
  | [] => []
  | x :: xs => if x = c then xs else x :: removeFirstChar c xs

/-- `item.price.replace('£', '')` followed by `parseFloat`, as in all three
`total()` computed properties. -/
def parsePrice (s : String) : Option ℚ :=
  parseFloatJS (String.mk (removeFirstChar '£' s.toList))

/-! ### The cart total

`total()` is the same code in `src/cart.js`, `src/checkout.js` and the catalog
page: `cart.reduce((sum, item) => sum + parseFloat(item.price.replace('£',''))
* item.cartQuantity, 0)`.  `none` models `NaN`, which absorbs through `+`
and `*`. -/

/-- JavaScript addition on possibly-`NaN` doubles: the exact sum, rounded
to the nearest binary64 value. -/
def jsAdd : Option ℚ → Option ℚ → Option ℚ
  | some a, some b => some (roundDouble (a + b))
  | _, _ => none

/-- JavaScript multiplication on possibly-`NaN` doubles: the exact product,
rounded to the nearest binary64 value. -/
def jsMul : Option ℚ → Option ℚ → Option ℚ
  | some a, some b => some (roundDouble (a * b))
  | _, _ => none

/-- One `reduce` step of `total()`:
`(sum, item) => sum + parseFloat(item.price.replace('£','')) * item.cartQuantity`. -/
def totalStep (sum : Option ℚ) (item : CartItem) : Option ℚ :=
  jsAdd sum (jsMul (parsePrice item.price) (some (item.cartQuantity : ℚ)))

/-- The `total()` computed property: a left fold starting from `0`. -/
def total (cart : List CartItem) : Option ℚ :=
  cart.foldl totalStep (some 0)

theorem jsAdd_right_none (a : Option ℚ) : jsAdd a none = none := by
  cases a <;> rfl

/-- Folding `totalStep` from a `NaN` accumulator stays `NaN`. -/
theorem foldl_totalStep_none (cart : List CartItem) :
    cart.foldl totalStep none = none := by
  induction cart with
  | nil => rfl
  | cons c cs ih =>
    show List.foldl totalStep (totalStep none c) cs = none
    have : totalStep none c = none := rfl
    rw [this, ih]

/-- Cart entries with the parseable prices £0.1, £0.2 and £0.3, chosen so
that the double additions in `total` round differently on the two sides of a
concatenation. -/
def tenthEntry : CartItem :=
  { id := 21, name := "Tenth Pound Course", Location := "Hull",
    price := "£0.1", spaces := 1, quantity := 1, inCart := false, cartQuantity := 1 }

/-- A cart entry priced £0.2. -/
def fifthEntry : CartItem :=
  { id := 22, name := "Fifth Pound Course", Location := "Hull",
    price := "£0.2", spaces := 1, quantity := 1, inCart := false, cartQuantity := 1 }

/-- A cart entry priced £0.3. -/
def thirdEntry : CartItem :=
  { id := 23, name := "Third Pound Course", Location := "Hull",
    price := "£0.3", spaces := 1, quantity := 1, inCart := false, cartQuantity := 1 }

/-- Claim C4, counterexample: all three prices parse, the total of `[£0.1]`
is the double 0.1 and the total of `[£0.2, £0.3]` is the double 0.5, yet the
total of the concatenation is the double 0.6000000000000001
(= 1351079888211149 / 2 ^ 51) — different both from the exact sum of the two
totals and from their double sum 0.6 (= 5404319552844595 / 2 ^ 53), because
each double addition rounds.  `computeTotal` is therefore not additive over
concatenation even on well-formed prices. -/
theorem total_not_additive_cex :
    (parsePrice tenthEntry.price).isSome = true ∧
    (parsePrice fifthEntry.price).isSome = true ∧
    (parsePrice thirdEntry.price).isSome = true ∧
    total [tenthEntry] = some ((3602879701896397 : ℚ) / 36028797018963968) ∧
    total [fifthEntry, thirdEntry] = some ((1 : ℚ) / 2) ∧
    total ([tenthEntry] ++ [fifthEntry, thirdEntry])
      = some ((1351079888211149 : ℚ) / 2251799813685248) ∧
    jsAdd (total [tenthEntry]) (total [fifthEntry, thirdEntry])
      = some ((5404319552844595 : ℚ) / 9007199254740992) ∧
    ((1351079888211149 : ℚ) / 2251799813685248)
      ≠ (3602879701896397 : ℚ) / 36028797018963968 + 1 / 2 ∧
    ((1351079888211149 : ℚ) / 2251799813685248)
      ≠ (5404319552844595 : ℚ) / 9007199254740992 := by
  refine ⟨rfl, rfl, rfl, ?_, ?_, ?_, ?_, ?_, ?_⟩
  · with_unfolding_all rfl
  · with_unfolding_all rfl
  · with_unfolding_all rfl
  · with_unfolding_all rfl
  · norm_num
  · norm_num

/-- Claim C4 as amended: `total` of the empty cart is `0` (not `NaN`), and
over concatenation the code satisfies the fold-composition law — the total
of `xs ++ ys` is the reduce of `ys` continued from the accumulator
`total xs` — but exact additivity fails in general, since every double
addition rounds (the counterexample's 0.6000000000000001 against 0.6). -/
theorem total_empty_and_append_law :
    total [] = some 0 ∧
    (∀ xs ys : List CartItem, total (xs ++ ys) = ys.foldl totalStep (total xs)) ∧
    total ([tenthEntry] ++ [fifthEntry, thirdEntry])
      ≠ jsAdd (total [tenthEntry]) (total [fifthEntry, thirdEntry]) := by
  refine ⟨rfl, ?_, ?_⟩
  · intro xs ys
    simp [total, List.foldl_append]
  · with_unfolding_all decide

/-- A concrete two-entry cart used to instantiate the quantified claims. -/
def demoEntryA : CartItem :=
  { id := 1, name := "Mobile App Development", Location := "Birmingham",
    price := "£88.99", spaces := 10, quantity := 2, inCart := false, cartQuantity := 2 }

/-- A second concrete cart entry. -/
def demoEntryB : CartItem :=
  { id := 10, name := "Python Programming", Location := "Liverpool",
    price := "£150", spaces := 12, quantity := 1, inCart := false, cartQuantity := 1 }

/-- A cart entry whose price string does not parse: `parseFloat("oops")` is
`NaN`. -/
def malformedEntry : CartItem :=
  { id := 99, name := "Broken Course", Location := "Nowhere",
    price := "oops", spaces := 0, quantity := 1, inCart := false, cartQuantity := 1 }

/-- Claim C5, counterexample: on a cart with a malformed price the code does
not fail fast with a reported parse error; `total` simply evaluates to `NaN`
(modelled `none`) — a silently produced `NaN` result, which the claim rules
out.  The code has no error channel at all. -/
theorem total_malformed_silent_nan_cex :
    parsePrice malformedEntry.price = none ∧ total [malformedEntry] = none :=
  ⟨rfl, rfl⟩

theorem foldl_totalStep_bad (cart : List CartItem) (e : CartItem)
    (hbad : parsePrice e.price = none) :
    e ∈ cart → ∀ acc : Option ℚ, cart.foldl totalStep acc = none := by
  induction cart with
  | nil => intro he; exact absurd he (List.not_mem_nil e)
  | cons c cs ih =>
    intro he acc
    rcases List.mem_cons.mp he with rfl | hecs
    · show List.foldl totalStep (totalStep acc e) cs = none
      have hstep : totalStep acc e = none := by
        cases acc <;> simp [totalStep, hbad, jsMul, jsAdd]
      rw [hstep, foldl_totalStep_none]
    · show List.foldl totalStep (totalStep acc c) cs = none
      exact ih hecs (totalStep acc c)

/-- Claim C5 as amended: whenever some entry's price string fails to parse
(after removing the first `£`), `total` silently evaluates to `NaN`
(modelled `none`); no error is reported and no other value is produced. -/
theorem total_malformed_propagates_nan (cart : List CartItem)
    (h : ∃ e ∈ cart, parsePrice e.price = none) : total cart = none := by
  obtain ⟨e, he, hbad⟩ := h
  exact foldl_totalStep_bad cart e hbad he (some 0)

/-- Witness for the amended C5 at the concrete cart `[malformedEntry]`. -/
theorem total_malformed_propagates_nan_witness :
    (∃ e ∈ [malformedEntry], parsePrice e.price = none) ∧ total [malformedEntry] = none :=
  have h : ∃ e ∈ [malformedEntry], parsePrice e.price = none :=
    ⟨malformedEntry, List.mem_singleton_self _, rfl⟩
  ⟨h, total_malformed_propagates_nan [malformedEntry] h⟩

/-! ### Search and sort (`filteredProducts`, catalog page)

`filteredProducts()` filters `products` by a case-insensitive substring match
of `searchQuery` against `name` or `Location`, then — when `sortBy` is set —
sorts a copy with `Array.prototype.sort` and a comparator.  The comparator for
`sortBy === 'price'` computes `parseInt(price.replace('$','')) -
parseInt(price.replace('$',''))`; on this catalog's `£`-prefixed prices
`parseInt` always returns `NaN`, and the ECMAScript sort specification coerces
a `NaN` comparator result to `+0`, so all elements compare equal and the
(stable) sort leaves the order unchanged. -/

/-- Model of `String.prototype.toLowerCase`.  All strings in this repository
are ASCII, on which per-character lowering agrees with the JavaScript
function.  (Defined structurally on the character list so that it evaluates
inside the kernel.) -/
def toLowerStr (s : String) : String :=
  String.mk (s.toList.map Char.toLower)

/-- Does the character list start with the given pattern? -/
def startsWithCh : List Char → List Char → Bool
  | _, [] => true
  | [], _ :: _ => false
  | c :: cs, d :: ds => c = d && startsWithCh cs ds

/-- Model of `String.prototype.includes` on character lists. -/
def includesCh (sub : List Char) : List Char → Bool
  | [] => startsWithCh [] sub
  | c :: cs => startsWithCh (c :: cs) sub || includesCh sub cs

/-- `s.includes(sub)` for strings. -/
def includesStr (s sub : String) : Bool :=
  includesCh sub.toList s.toList

/-- Model of `String.prototype.localeCompare` (default locale).  All names in
the catalog are plain ASCII; the model compares code points, negative when the
first string orders before the second.  No claim depends on name sorting. -/
def localeCompareJS (a b : String) : Int :=
  if a < b then -1 else if b < a then 1 else 0

/-- The sort comparator of `filteredProducts`, with ECMAScript's coercion of a
`NaN` comparator result to `+0` applied in the `'price'` branch (both
`parseInt` calls yield `NaN` whenever a price does not start with digits after
removing a `'$'`, which never occurs in the `£`-priced catalog). -/
def sortComparator (sortBy : String) (a b : Product) : Int :=
  if sortBy = "name" then localeCompareJS a.name b.name
  else if sortBy = "price" then
    match parseIntJS (String.mk (removeFirstChar '$' a.price.toList)),
          parseIntJS (String.mk (removeFirstChar '$' b.price.toList)) with
    | some x, some y => x - y
    | _, _ => 0
  else 0

/-- Stable insertion of `x` before the first element it does not compare
after; together with `jsSortStable` this realises the sorted-and-stable
contract of `Array.prototype.sort`. -/
def insertCmp (cmp : α → α → Int) (x : α) : List α → List α
  | [] => [x]
  | y :: ys => if cmp x y ≤ 0 then x :: y :: ys else y :: insertCmp cmp x ys

/-- Stable sort by a comparator (insertion sort, which is stable). -/
def jsSortStable (cmp : α → α → Int) : List α → List α
  | [] => []
  | x :: xs => insertCmp cmp x (jsSortStable cmp xs)

/-- The `filteredProducts` computed property of the catalog page. -/
def filteredProducts (products : List Product) (searchQuery sortBy : String) : List Product :=
  let filtered :=
    if searchQuery ≠ "" then
      products.filter (fun product =>
        includesStr (toLowerStr product.name) (toLowerStr searchQuery) ||
        includesStr (toLowerStr product.Location) (toLowerStr searchQuery))
    else products
  if sortBy ≠ "" then jsSortStable (sortComparator sortBy) filtered
  else filtered

/-- Claim C3, evaluated: the filter half of the worked example holds — query
"liverpool" returns exactly the Python Programming item — but the sort half
fails on the code: with sortKey "price" the comparator calls
`parseInt(price.replace('$',''))` on `£`-prefixed prices, always producing
`NaN`, which the sort coerces to `+0`; the stable sort therefore returns the
catalog unchanged, leaving Cybersecurity Basics (position 4, £250) before
Python Programming (position 10, £150) instead of the claimed numeric
ascending order. -/
theorem filteredProducts_example_eval :
    filteredProducts seedProducts "liverpool" "" =
      [ { id := 10, name := "Python Programming", Location := "Liverpool",
          price := "£150", spaces := 12, quantity := 1, inCart := false } ] ∧
    filteredProducts seedProducts "" "price" = seedProducts ∧
    (filteredProducts seedProducts "" "price").map Product.id =
      [1, 2, 3, 4, 5, 6, 7, 8, 9, 10] :=
  ⟨by decide, rfl, rfl⟩

/-! ### The catalog page state machine (`addToCart` / `removeFromCart`)

The catalog page's reactive data holds `products`, `cart`, `searchQuery` and
`sortBy`.  `addToCart(product)` is invoked on a product of the list (modelled
by its position); the requested quantity is the product's transient
`quantity` field, which the UI sets through `v-model` (modelled by the
`setQty` action) and which `addToCart` resets to 1 on success.
`removeFromCart(item)` is invoked on a cart entry (modelled by its position;
`indexOf` of a non-member is `-1` and does nothing).  `saveCart()` writes the
cart to the external store and changes no in-memory state, so it does not
appear in the state transitions. -/

/-- The reactive `data` of the catalog page. -/
structure AppState where
  products : List Product
  cart : List CartItem
  searchQuery : String
  sortBy : String
deriving DecidableEq

/-- `cart.find(item => item.id === product.id)` is truthy, i.e. some cart
entry carries the given id. -/
def hasId : List CartItem → Nat → Bool
  | [], _ => false
  | e :: rest, pid => if e.id = pid then true else hasId rest pid

/-- `existingItem.cartQuantity += q` on the first cart entry with the given
id (the entry `find` returned); entries after the first match are untouched. -/
def bumpFirst : List CartItem → Nat → Int → List CartItem
  | [], _, _ => []
  | e :: rest, pid, q =>
    if e.id = pid then { e with cartQuantity := e.cartQuantity + q } :: rest
    else e :: bumpFirst rest pid q

/-- `products.find(p => p.id === item.id)` followed by
`originalProduct.spaces += item.cartQuantity; originalProduct.inCart = false`;
when no product matches, `find` is `undefined` and the restore is skipped. -/
def restoreFirst : List Product → Nat → Int → List Product
  | [], _, _ => []
  | p :: rest, pid, q =>
    if p.id = pid then { p with spaces := p.spaces + q, inCart := false } :: rest
    else p :: restoreFirst rest pid q

/-- The spread copy `{...product, cartQuantity: product.quantity}` taken
before `addToCart` mutates the product. -/
def mkCartItem (p : Product) : CartItem :=
  { id := p.id, name := p.name, Location := p.Location, price := p.price,
    spaces := p.spaces, quantity := p.quantity, inCart := p.inCart,
    cartQuantity := p.quantity }

/-- The UI writing `product.quantity` through its `v-model` binding. -/
def setQuantity (st : AppState) (idx : Nat) (q : Int) : AppState :=
  if h : idx < st.products.length then
    { st with products := st.products.set idx { st.products.get ⟨idx, h⟩ with quantity := q } }
  else st

/-- `addToCart(product)` of the catalog page.  Guard:
`product.spaces >= product.quantity && product.quantity > 0`.  On success the
entry is merged into the existing cart entry or pushed (the push also sets
`product.inCart = true`), then `product.spaces -= product.quantity` and
`product.quantity = 1`. -/
def addToCart (st : AppState) (idx : Nat) : AppState :=
  if h : idx < st.products.length then
    if (st.products.get ⟨idx, h⟩).spaces ≥ (st.products.get ⟨idx, h⟩).quantity ∧
        (st.products.get ⟨idx, h⟩).quantity > 0 then
      if hasId st.cart (st.products.get ⟨idx, h⟩).id then
        { st with
          cart := bumpFirst st.cart (st.products.get ⟨idx, h⟩).id
            (st.products.get ⟨idx, h⟩).quantity,
          products := st.products.set idx
            { st.products.get ⟨idx, h⟩ with
              spaces := (st.products.get ⟨idx, h⟩).spaces - (st.products.get ⟨idx, h⟩).quantity,
              quantity := 1 } }
      else
        { st with
          cart := st.cart ++ [mkCartItem (st.products.get ⟨idx, h⟩)],
          products := st.products.set idx
            { st.products.get ⟨idx, h⟩ with
              spaces := (st.products.get ⟨idx, h⟩).spaces - (st.products.get ⟨idx, h⟩).quantity,
              quantity := 1, inCart := true } }
    else st
  else st

/-- `removeFromCart(item)` of the catalog page, for the cart entry at the
given position. -/
def removeFromCart (st : AppState) (cidx : Nat) : AppState :=
  if h : cidx < st.cart.length then
    { st with
      products := restoreFirst st.products (st.cart.get ⟨cidx, h⟩).id
        (st.cart.get ⟨cidx, h⟩).cartQuantity,
      cart := st.cart.eraseIdx cidx }
  else st

/-- User actions on the catalog page that touch the cart/capacity state. -/
inductive CartAction
  | setQty (idx : Nat) (q : Int)
  | add (idx : Nat)
  | remove (cidx : Nat)
deriving DecidableEq

/-- One action step. -/
def step (st : AppState) : CartAction → AppState
  | .setQty idx q => setQuantity st idx q
  | .add idx => addToCart st idx
  | .remove cidx => removeFromCart st cidx

/-- Run a sequence of actions from a state. -/
def run (acts : List CartAction) (st : AppState) : AppState :=
  acts.foldl step st

/-- The catalog page's initial state: seeded products, empty cart. -/
def initState : AppState :=
  { products := seedProducts, cart := [], searchQuery := "", sortBy := "" }

/-- Total quantity the cart holds for a given catalog identifier. -/
def cartQty : List CartItem → Nat → Int
  | [], _ => 0
  | e :: rest, pid => (if e.id = pid then e.cartQuantity else 0) + cartQty rest pid

/-- The seeded (original) capacity of the catalog item with the given id. -/
def origCapacity (pid : Nat) : Int :=
  match seedProducts.find? (fun p => p.id = pid) with
  | some p => p.spaces
  | none => 0

/-! ### The conservation invariant (claim C1) -/

theorem cartQty_append (c1 c2 : List CartItem) (x : Nat) :
    cartQty (c1 ++ c2) x = cartQty c1 x + cartQty c2 x := by
  induction c1 with
  | nil => simp [cartQty]
  | cons e rest ih =>
    have h1 : cartQty ((e :: rest) ++ c2) x
        = (if e.id = x then e.cartQuantity else 0) + cartQty (rest ++ c2) x := rfl
    have h2 : cartQty (e :: rest) x
        = (if e.id = x then e.cartQuantity else 0) + cartQty rest x := rfl
    rw [h1, h2, ih]
    omega

theorem cartQty_bumpFirst (c : List CartItem) (pid : Nat) (q : Int) (x : Nat) :
    cartQty (bumpFirst c pid q) x =
      cartQty c x + (if x = pid ∧ hasId c pid = true then q else 0) := by
  induction c with
  | nil => simp [bumpFirst, cartQty, hasId]
  | cons e rest ih =>
    by_cases he : e.id = pid
    · simp only [bumpFirst, hasId, he, if_pos rfl, if_true, cartQty]
      by_cases hx : x = pid
      · rw [hx] at *; simp only [he, if_pos rfl, and_true, if_true]; omega
      · have hex : ¬ e.id = x := fun hc => hx (hc ▸ he.symm ▸ rfl)
        simp only [if_neg hex, if_neg (fun hc : x = pid ∧ True => hx hc.1)]
        omega
    · simp only [bumpFirst, hasId, if_neg he, cartQty, ih]
      split_ifs <;> omega

theorem cartQty_eraseIdx (c : List CartItem) :
    ∀ (i : Nat) (h : i < c.length) (x : Nat),
      cartQty (c.eraseIdx i) x =
        cartQty c x - (if (c.get ⟨i, h⟩).id = x then (c.get ⟨i, h⟩).cartQuantity else 0) := by
  induction c with
  | nil => intro i h x; exact absurd h (by simp)
  | cons e rest ih =>
    intro i h x
    match i with
    | 0 =>
      show cartQty rest x
        = ((if e.id = x then e.cartQuantity else 0) + cartQty rest x)
          - (if e.id = x then e.cartQuantity else 0)
      omega
    | i + 1 =>
      have hi : i < rest.length := by simpa using h
      have h1 : cartQty ((e :: rest).eraseIdx (i + 1)) x
          = (if e.id = x then e.cartQuantity else 0) + cartQty (rest.eraseIdx i) x := rfl
      have h2 : cartQty (e :: rest) x
          = (if e.id = x then e.cartQuantity else 0) + cartQty rest x := rfl
      have h3 : (e :: rest).get ⟨i + 1, h⟩ = rest.get ⟨i, hi⟩ := rfl
      rw [h1, h2, h3, ih i hi x]
      omega

theorem map_id_bumpFirst (c : List CartItem) (pid : Nat) (q : Int) :
    (bumpFirst c pid q).map CartItem.id = c.map CartItem.id := by
  induction c with
  | nil => rfl
  | cons e rest ih =>
    by_cases he : e.id = pid
    · simp [bumpFirst, he]
    · simp [bumpFirst, he, ih]

theorem map_id_restoreFirst (ps : List Product) (pid : Nat) (q : Int) :
    (restoreFirst ps pid q).map Product.id = ps.map Product.id := by
  induction ps with
  | nil => rfl
  | cons p rest ih =>
    by_cases hp : p.id = pid
    · simp [restoreFirst, hp]
    · simp [restoreFirst, hp, ih]

/-- On a catalog with pairwise distinct ids, `restoreFirst` leaves products
with a different id alone and rewrites the (unique) matching product. -/
theorem restoreFirst_mem (ps : List Product) (pid : Nat) (q : Int)
    (hnd : (ps.map Product.id).Nodup) :
    ∀ p' ∈ restoreFirst ps pid q,
      (p'.id ≠ pid ∧ p' ∈ ps) ∨
      (p'.id = pid ∧ ∃ p, p ∈ ps ∧ p.id = pid ∧
        p' = { p with spaces := p.spaces + q, inCart := false }) := by
  induction ps with
  | nil => intro p' hp'; exact absurd hp' (List.not_mem_nil p')
  | cons p rest ih =>
    have hnd' : (rest.map Product.id).Nodup := (List.nodup_cons.mp hnd).2
    have hnotin : p.id ∉ rest.map Product.id := (List.nodup_cons.mp hnd).1
    intro p' hp'
    by_cases hp : p.id = pid
    · rw [restoreFirst, if_pos hp] at hp'
      rcases List.mem_cons.mp hp' with heq | hrest
      · exact Or.inr ⟨by rw [heq]; exact hp, p, List.mem_cons_self p rest, hp, heq⟩
      · refine Or.inl ⟨?_, List.mem_cons_of_mem p hrest⟩
        intro hc
        exact hnotin (hp ▸ hc ▸ List.mem_map_of_mem Product.id hrest)
    · rw [restoreFirst, if_neg hp] at hp'
      rcases List.mem_cons.mp hp' with heq | hrest
      · exact Or.inl ⟨by rw [heq]; exact hp, by rw [heq]; exact List.mem_cons_self p rest⟩
      · rcases ih hnd' p' hrest with ⟨hne, hmem⟩ | ⟨hid, p0, hmem, hid0, heq⟩
        · exact Or.inl ⟨hne, List.mem_cons_of_mem p hmem⟩
        · exact Or.inr ⟨hid, p0, List.mem_cons_of_mem p hmem, hid0, heq⟩

theorem hasId_eq_false_iff (c : List CartItem) (pid : Nat) :
    hasId c pid = false ↔ ∀ e ∈ c, e.id ≠ pid := by
  induction c with
  | nil => simp [hasId]
  | cons e rest ih =>
    by_cases he : e.id = pid
    · simp [hasId, he]
    · simp [hasId, he, ih]

theorem hasId_append (c1 c2 : List CartItem) (pid : Nat) :
    hasId (c1 ++ c2) pid = (hasId c1 pid || hasId c2 pid) := by
  induction c1 with
  | nil => simp [hasId]
  | cons e rest ih =>
    by_cases he : e.id = pid
    · simp [hasId, he]
    · simp [hasId, he, ih]

/-- When no earlier entry matches, `bumpFirst` lands on the appended entry. -/
theorem bumpFirst_append_of_fresh (c : List CartItem) (e0 : CartItem) (pid : Nat) (q : Int)
    (hno : ∀ e ∈ c, e.id ≠ pid) (he0 : e0.id = pid) :
    bumpFirst (c ++ [e0]) pid q = c ++ [{ e0 with cartQuantity := e0.cartQuantity + q }] := by
  induction c with
  | nil => simp [bumpFirst, he0]
  | cons e rest ih =>
    have hne : e.id ≠ pid := hno e (List.mem_cons_self e rest)
    have h1 : bumpFirst ((e :: rest) ++ [e0]) pid q = e :: bumpFirst (rest ++ [e0]) pid q := by
      show bumpFirst (e :: (rest ++ [e0])) pid q = _
      simp only [bumpFirst, if_neg hne]
    rw [h1, ih (fun x hx => hno x (List.mem_cons_of_mem e hx))]
    rfl

/-- The seeded catalog carries pairwise distinct identifiers. -/
theorem seedIds_nodup : (seedProducts.map Product.id).Nodup := by decide

/-- The conservation invariant (plus the bookkeeping fact that the catalog's
id column never changes): for every product, the cart's aggregate quantity
for its id plus its remaining spaces equals the seeded capacity. -/
def ConsInv (st : AppState) : Prop :=
  st.products.map Product.id = seedProducts.map Product.id ∧
  ∀ p ∈ st.products, cartQty st.cart p.id + p.spaces = origCapacity p.id

/-- Replacing the product at `idx` by one with the same id keeps the id
column unchanged. -/
theorem map_id_set_same (ps : List Product) (idx : Nat) (h : idx < ps.length)
    (p' : Product) (hid : p'.id = (ps.get ⟨idx, h⟩).id) :
    (ps.set idx p').map Product.id = ps.map Product.id := by
  apply List.ext_getElem
  · simp
  · intro i h1 h2
    have hi : i < (ps.set idx p').length := by simpa using h1
    simp only [List.getElem_map]
    by_cases hii : i = idx
    · subst hii
      rw [List.getElem_set_self (by simpa using h1)]
      rw [hid]
      rfl
    · rw [List.getElem_set_ne (fun hc => hii hc.symm)]

/-- Core of the `addToCart` preservation argument: the cart gained exactly
the requested quantity at the product's id, and the product at `idx` lost
exactly that many spaces. -/
theorem ConsInv_add_core (st : AppState) (idx : Nat) (h : idx < st.products.length)
    (cart' : List CartItem) (newP : Product) (d : Int)
    (hqty : ∀ x, cartQty cart' x = cartQty st.cart x
        + (if x = (st.products.get ⟨idx, h⟩).id then d else 0))
    (hid : newP.id = (st.products.get ⟨idx, h⟩).id)
    (hsp : newP.spaces = (st.products.get ⟨idx, h⟩).spaces - d)
    (hinv : ConsInv st) :
    ConsInv { st with cart := cart', products := st.products.set idx newP } := by
  obtain ⟨hids, hsum⟩ := hinv
  have hnd : (st.products.map Product.id).Nodup := by rw [hids]; exact seedIds_nodup
  refine ⟨?_, ?_⟩
  · show (st.products.set idx newP).map Product.id = _
    rw [map_id_set_same st.products idx h newP hid]
    exact hids
  · intro p' hp'
    obtain ⟨j, hj, hpe⟩ := List.mem_iff_getElem.mp hp'
    subst hpe
    show cartQty cart' _ + _ = _
    by_cases hji : j = idx
    · subst hji
      rw [List.getElem_set_self (by simpa using hj)]
      rw [hqty, hid, hsp, if_pos rfl]
      have hmem : st.products.get ⟨j, h⟩ ∈ st.products := by
        rw [List.get_eq_getElem]; exact List.getElem_mem h
      have := hsum (st.products.get ⟨j, h⟩) hmem
      omega
    · have hj' : j < st.products.length := by simpa using hj
      rw [List.getElem_set_ne (fun hc => hji hc.symm)]
      have hidne : st.products[j].id ≠ (st.products.get ⟨idx, h⟩).id := by
        intro hc
        apply hji
        have hmap : (st.products.map Product.id).get ⟨j, by simpa using hj'⟩
            = (st.products.map Product.id).get ⟨idx, by simpa using h⟩ := by
          simp only [List.get_eq_getElem, List.getElem_map]
          rw [hc]
          rfl
        exact congrArg Fin.val (hnd.get_inj_iff.mp hmap)
      rw [hqty, if_neg hidne]
      have hmem : st.products[j] ∈ st.products := List.getElem_mem hj'
      have := hsum st.products[j] hmem
      omega

theorem ConsInv_setQuantity (st : AppState) (idx : Nat) (q : Int) (hinv : ConsInv st) :
    ConsInv (setQuantity st idx q) := by
  unfold setQuantity
  split
  · next h =>
    exact ConsInv_add_core st idx h st.cart _ 0 (fun x => by simp) rfl (by simp) hinv
  · exact hinv

theorem ConsInv_addToCart (st : AppState) (idx : Nat) (hinv : ConsInv st) :
    ConsInv (addToCart st idx) := by
  unfold addToCart
  split
  · next h =>
    split
    · next hguard =>
      split
      · next hB =>
        refine ConsInv_add_core st idx h _ _ (st.products.get ⟨idx, h⟩).quantity
          (fun x => ?_) rfl (by simp) hinv
        rw [cartQty_bumpFirst]
        simp only [List.get_eq_getElem] at hB
        simp [hB]
      · next hB =>
        refine ConsInv_add_core st idx h _ _ (st.products.get ⟨idx, h⟩).quantity
          (fun x => ?_) rfl (by simp) hinv
        rw [cartQty_append]
        have hone : cartQty [mkCartItem (st.products.get ⟨idx, h⟩)] x
            = if x = (st.products.get ⟨idx, h⟩).id
              then (st.products.get ⟨idx, h⟩).quantity else 0 := by
          show (if (mkCartItem (st.products.get ⟨idx, h⟩)).id = x
              then (mkCartItem (st.products.get ⟨idx, h⟩)).cartQuantity else 0) + 0 = _
          by_cases hx : x = (st.products.get ⟨idx, h⟩).id
          · rw [if_pos hx, if_pos (show (mkCartItem (st.products.get ⟨idx, h⟩)).id = x from hx ▸ rfl)]
            show (st.products.get ⟨idx, h⟩).quantity + 0 = (st.products.get ⟨idx, h⟩).quantity
            omega
          · rw [if_neg hx, if_neg (fun hc : (mkCartItem (st.products.get ⟨idx, h⟩)).id = x
              => hx (by rw [← hc]; rfl))]
            omega
        rw [hone]
    · exact hinv
  · exact hinv

theorem ConsInv_removeFromCart (st : AppState) (cidx : Nat) (hinv : ConsInv st) :
    ConsInv (removeFromCart st cidx) := by
  obtain ⟨hids, hsum⟩ := hinv
  unfold removeFromCart
  split
  · next h =>
    have hnd : (st.products.map Product.id).Nodup := by rw [hids]; exact seedIds_nodup
    refine ⟨?_, ?_⟩
    · show (restoreFirst st.products _ _).map Product.id = _
      rw [map_id_restoreFirst]
      exact hids
    · intro p' hp'
      rcases restoreFirst_mem st.products (st.cart.get ⟨cidx, h⟩).id
          (st.cart.get ⟨cidx, h⟩).cartQuantity hnd p' hp' with
        ⟨hne, hmem⟩ | ⟨hid, p0, hmem, hid0, hpe⟩
      · show cartQty (st.cart.eraseIdx cidx) p'.id + p'.spaces = origCapacity p'.id
        rw [cartQty_eraseIdx st.cart cidx h p'.id, if_neg (fun hc => hne hc.symm)]
        have := hsum p' hmem
        omega
      · show cartQty (st.cart.eraseIdx cidx) p'.id + p'.spaces = origCapacity p'.id
        have hpid : p'.id = p0.id := by rw [hid, ← hid0]
        have hsp : p'.spaces = p0.spaces + (st.cart.get ⟨cidx, h⟩).cartQuantity := by
          rw [hpe]
        rw [cartQty_eraseIdx st.cart cidx h p'.id, if_pos hid.symm, hpid, hsp]
        have := hsum p0 hmem
        omega
  · exact ⟨hids, hsum⟩

theorem ConsInv_step (st : AppState) (a : CartAction) (hinv : ConsInv st) :
    ConsInv (step st a) := by
  cases a with
  | setQty idx q => exact ConsInv_setQuantity st idx q hinv
  | add idx => exact ConsInv_addToCart st idx hinv
  | remove cidx => exact ConsInv_removeFromCart st cidx hinv

theorem ConsInv_run (acts : List CartAction) :
    ∀ st : AppState, ConsInv st → ConsInv (run acts st) := by
  induction acts with
  | nil => intro st hinv; exact hinv
  | cons a as ih =>
    intro st hinv
    show ConsInv (run as (step st a))
    exact ih (step st a) (ConsInv_step st a hinv)

theorem ConsInv_init : ConsInv initState := by
  refine ⟨rfl, ?_⟩
  decide

/-- Claim C1: for every sequence of catalog-page actions starting from the
seeded catalog with an empty cart, and for every catalog item in the
resulting state, the cart's aggregate quantity for that item's id plus the
item's remaining spaces equals the item's seeded capacity. -/
theorem conservation_invariant (acts : List CartAction) :
    ∀ p ∈ (run acts initState).products,
      cartQty (run acts initState).cart p.id + p.spaces = origCapacity p.id :=
  (ConsInv_run acts initState ConsInv_init).2

/-- The action sequence used by the C1 witness: set the first product's
requested quantity to 2, add it, then remove cart entry 0 and add once more
with the default quantity 1. -/
def c1DemoActs : List CartAction :=
  [CartAction.setQty 0 2, CartAction.add 0, CartAction.remove 0, CartAction.add 0]

/-- The first catalog product as it stands after `c1DemoActs`. -/
def c1DemoProduct : Product :=
  { id := 1, name := "Mobile App Development", Location := "Birmingham",
    price := "£88.99", spaces := 9, quantity := 1, inCart := true }

/-- Witness for C1 at a concrete action sequence and catalog item. -/
theorem conservation_invariant_witness :
    c1DemoProduct ∈ (run c1DemoActs initState).products ∧
    cartQty (run c1DemoActs initState).cart c1DemoProduct.id + c1DemoProduct.spaces
      = origCapacity c1DemoProduct.id :=
  have hmem : c1DemoProduct ∈ (run c1DemoActs initState).products := by decide
  ⟨hmem, conservation_invariant c1DemoActs c1DemoProduct hmem⟩

/-! ### The merge law (claim C2) -/

theorem setQuantity_cart (st : AppState) (idx : Nat) (q : Int) :
    (setQuantity st idx q).cart = st.cart := by
  unfold setQuantity
  split <;> rfl

theorem setQuantity_len (st : AppState) (idx : Nat) (q : Int) :
    (setQuantity st idx q).products.length = st.products.length := by
  unfold setQuantity
  split <;> simp

theorem setQuantity_products (st : AppState) (idx : Nat) (q : Int)
    (h : idx < st.products.length) :
    (setQuantity st idx q).products
      = st.products.set idx { st.products.get ⟨idx, h⟩ with quantity := q } := by
  unfold setQuantity
  rw [dif_pos h]

/-- Reading back the element just written by `List.set`. -/
theorem get_set_self_list {α : Type} (l : List α) (i : Nat) (a : α)
    (h' : i < (l.set i a).length) : (l.set i a).get ⟨i, h'⟩ = a := by
  rw [List.get_eq_getElem]
  exact List.getElem_set_self (by simpa using h')

/-- Transport a `get` along an equality of lists. -/
theorem get_congr {α : Type} {l1 l2 : List α} (hl : l1 = l2) {i : Nat}
    (h1 : i < l1.length) : l1.get ⟨i, h1⟩ = l2.get ⟨i, hl ▸ h1⟩ := by
  subst hl
  rfl

theorem addToCart_len (st : AppState) (idx : Nat) :
    (addToCart st idx).products.length = st.products.length := by
  unfold addToCart
  split
  · split
    · split <;> simp
    · rfl
  · rfl

theorem addToCart_push_cart (st : AppState) (idx : Nat) (h : idx < st.products.length)
    (hguard : (st.products.get ⟨idx, h⟩).spaces ≥ (st.products.get ⟨idx, h⟩).quantity ∧
      (st.products.get ⟨idx, h⟩).quantity > 0)
    (hfresh : hasId st.cart (st.products.get ⟨idx, h⟩).id = false) :
    (addToCart st idx).cart = st.cart ++ [mkCartItem (st.products.get ⟨idx, h⟩)] := by
  unfold addToCart
  rw [dif_pos h, if_pos hguard, if_neg (by rw [hfresh]; exact Bool.false_ne_true)]

theorem addToCart_push_products (st : AppState) (idx : Nat) (h : idx < st.products.length)
    (hguard : (st.products.get ⟨idx, h⟩).spaces ≥ (st.products.get ⟨idx, h⟩).quantity ∧
      (st.products.get ⟨idx, h⟩).quantity > 0)
    (hfresh : hasId st.cart (st.products.get ⟨idx, h⟩).id = false) :
    (addToCart st idx).products
      = st.products.set idx
          { st.products.get ⟨idx, h⟩ with
            spaces := (st.products.get ⟨idx, h⟩).spaces - (st.products.get ⟨idx, h⟩).quantity,
            quantity := 1, inCart := true } := by
  unfold addToCart
  rw [dif_pos h, if_pos hguard, if_neg (by rw [hfresh]; exact Bool.false_ne_true)]

theorem addToCart_merge_cart (st : AppState) (idx : Nat) (h : idx < st.products.length)
    (hguard : (st.products.get ⟨idx, h⟩).spaces ≥ (st.products.get ⟨idx, h⟩).quantity ∧
      (st.products.get ⟨idx, h⟩).quantity > 0)
    (hfound : hasId st.cart (st.products.get ⟨idx, h⟩).id = true) :
    (addToCart st idx).cart
      = bumpFirst st.cart (st.products.get ⟨idx, h⟩).id (st.products.get ⟨idx, h⟩).quantity := by
  unfold addToCart
  rw [dif_pos h, if_pos hguard, if_pos hfound]

/-- Claim C2: from any catalog-page state whose cart has no entry for the
chosen product, setting the requested quantity to `q1` and adding, then
setting it to `q2` and adding again — each quantity individually valid
against the remaining spaces at its call time — leaves exactly one cart
entry for that product's id, and its quantity is `q1 + q2`. -/
theorem merge_law (st : AppState) (idx : Nat) (h : idx < st.products.length)
    (p : Product) (hp : st.products.get ⟨idx, h⟩ = p) (q1 q2 : Int)
    (hno : ∀ e ∈ st.cart, e.id ≠ p.id)
    (hq1a : 1 ≤ q1) (hq1b : q1 ≤ p.spaces)
    (hq2a : 1 ≤ q2) (hq2b : q2 ≤ p.spaces - q1) :
    ((run [CartAction.setQty idx q1, CartAction.add idx,
        CartAction.setQty idx q2, CartAction.add idx] st).cart.countP
          (fun e => e.id == p.id) = 1) ∧
    (∀ e ∈ (run [CartAction.setQty idx q1, CartAction.add idx,
        CartAction.setQty idx q2, CartAction.add idx] st).cart,
      e.id = p.id → e.cartQuantity = q1 + q2) := by
  have hrun : run [CartAction.setQty idx q1, CartAction.add idx,
      CartAction.setQty idx q2, CartAction.add idx] st
    = addToCart (setQuantity (addToCart (setQuantity st idx q1) idx) idx q2) idx := rfl
  have hprod1 : (setQuantity st idx q1).products
      = st.products.set idx { p with quantity := q1 } := by
    rw [setQuantity_products st idx q1 h, hp]
  have hl1 : idx < (setQuantity st idx q1).products.length := by
    rw [hprod1]; simpa using h
  have hg1 : (setQuantity st idx q1).products.get ⟨idx, hl1⟩ = { p with quantity := q1 } := by
    rw [get_congr hprod1 hl1, get_set_self_list]
  have hc1 : (setQuantity st idx q1).cart = st.cart := setQuantity_cart st idx q1
  have hguard1 : ((setQuantity st idx q1).products.get ⟨idx, hl1⟩).spaces
        ≥ ((setQuantity st idx q1).products.get ⟨idx, hl1⟩).quantity ∧
      ((setQuantity st idx q1).products.get ⟨idx, hl1⟩).quantity > 0 := by
    rw [hg1]
    refine ⟨hq1b, ?_⟩
    show q1 > 0
    omega
  have hfresh1 : hasId (setQuantity st idx q1).cart
      ((setQuantity st idx q1).products.get ⟨idx, hl1⟩).id = false := by
    rw [hc1, hg1]
    exact (hasId_eq_false_iff st.cart p.id).mpr hno
  have hc2 : (addToCart (setQuantity st idx q1) idx).cart
      = st.cart ++ [mkCartItem { p with quantity := q1 }] := by
    rw [addToCart_push_cart _ idx hl1 hguard1 hfresh1, hc1, hg1]
  have hprod2 : (addToCart (setQuantity st idx q1) idx).products
      = st.products.set idx
          { p with spaces := p.spaces - q1, quantity := 1, inCart := true } := by
    rw [addToCart_push_products _ idx hl1 hguard1 hfresh1, hg1, hprod1, List.set_set]
  have hl2 : idx < (addToCart (setQuantity st idx q1) idx).products.length := by
    rw [hprod2]; simpa using h
  have hg2 : (addToCart (setQuantity st idx q1) idx).products.get ⟨idx, hl2⟩
      = { p with spaces := p.spaces - q1, quantity := 1, inCart := true } := by
    rw [get_congr hprod2 hl2, get_set_self_list]
  have hprod3 : (setQuantity (addToCart (setQuantity st idx q1) idx) idx q2).products
      = st.products.set idx
          { p with spaces := p.spaces - q1, quantity := q2, inCart := true } := by
    rw [setQuantity_products _ idx q2 hl2, hg2, hprod2, List.set_set]
  have hl3 : idx < (setQuantity (addToCart (setQuantity st idx q1) idx) idx q2).products.length := by
    rw [hprod3]; simpa using h
  have hg3 : (setQuantity (addToCart (setQuantity st idx q1) idx) idx q2).products.get ⟨idx, hl3⟩
      = { p with spaces := p.spaces - q1, quantity := q2, inCart := true } := by
    rw [get_congr hprod3 hl3, get_set_self_list]
  have hc3 : (setQuantity (addToCart (setQuantity st idx q1) idx) idx q2).cart
      = st.cart ++ [mkCartItem { p with quantity := q1 }] := by
    rw [setQuantity_cart, hc2]
  have hguard3 : ((setQuantity (addToCart (setQuantity st idx q1) idx) idx q2).products.get
        ⟨idx, hl3⟩).spaces
        ≥ ((setQuantity (addToCart (setQuantity st idx q1) idx) idx q2).products.get
        ⟨idx, hl3⟩).quantity ∧
      ((setQuantity (addToCart (setQuantity st idx q1) idx) idx q2).products.get
        ⟨idx, hl3⟩).quantity > 0 := by
    rw [hg3]
    constructor
    · show p.spaces - q1 ≥ q2
      omega
    · show q2 > 0
      omega
  have hfound3 : hasId (setQuantity (addToCart (setQuantity st idx q1) idx) idx q2).cart
      ((setQuantity (addToCart (setQuantity st idx q1) idx) idx q2).products.get
        ⟨idx, hl3⟩).id = true := by
    rw [hc3, hg3]
    show hasId (st.cart ++ [mkCartItem { p with quantity := q1 }]) p.id = true
    rw [hasId_append]
    have hone : hasId [mkCartItem { p with quantity := q1 }] p.id = true := by
      have hcid : (mkCartItem { p with quantity := q1 }).id = p.id := rfl
      show (if (mkCartItem { p with quantity := q1 }).id = p.id then true
          else hasId [] p.id) = true
      rw [if_pos hcid]
    rw [hone, Bool.or_true]
  have hfinal : (run [CartAction.setQty idx q1, CartAction.add idx,
        CartAction.setQty idx q2, CartAction.add idx] st).cart
      = st.cart ++ [{ mkCartItem { p with quantity := q1 } with cartQuantity := q1 + q2 }] := by
    rw [hrun, addToCart_merge_cart _ idx hl3 hguard3 hfound3, hg3, hc3]
    show bumpFirst (st.cart ++ [mkCartItem { p with quantity := q1 }]) p.id q2 = _
    rw [bumpFirst_append_of_fresh st.cart (mkCartItem { p with quantity := q1 }) p.id q2 hno rfl]
    rfl
  constructor
  · rw [hfinal, List.countP_append]
    have h0 : st.cart.countP (fun e => e.id == p.id) = 0 :=
      List.countP_eq_zero.mpr (fun e he => by simpa using hno e he)
    rw [h0]
    simp [List.countP_cons, mkCartItem]
  · intro e he heid
    rw [hfinal] at he
    rcases List.mem_append.mp he with hmem | hmem
    · exact absurd heid (hno e hmem)
    · rw [List.mem_singleton.mp hmem]

/-- The first seeded product, used by the C2 witness. -/
def c2DemoProduct : Product :=
  { id := 1, name := "Mobile App Development", Location := "Birmingham",
    price := "£88.99", spaces := 10, quantity := 1, inCart := false }

/-- Witness for C2 at the seeded initial state with quantities 2 and 3. -/
theorem merge_law_witness :
    (∀ e ∈ initState.cart, e.id ≠ c2DemoProduct.id) ∧
    ((run [CartAction.setQty 0 2, CartAction.add 0,
        CartAction.setQty 0 3, CartAction.add 0] initState).cart.countP
          (fun e => e.id == c2DemoProduct.id) = 1) ∧
    (∀ e ∈ (run [CartAction.setQty 0 2, CartAction.add 0,
        CartAction.setQty 0 3, CartAction.add 0] initState).cart,
      e.id = c2DemoProduct.id → e.cartQuantity = 2 + 3) := by
  have h0 : (0 : Nat) < initState.products.length := by decide
  have hp : initState.products.get ⟨0, h0⟩ = c2DemoProduct := rfl
  have hno : ∀ e ∈ initState.cart, e.id ≠ c2DemoProduct.id := by decide
  have hm := merge_law initState 0 h0 c2DemoProduct hp 2 3 hno
    (by decide) (by decide) (by decide) (by decide)
  exact ⟨hno, hm.1, hm.2⟩

/-! ### The cart page (`src/cart.js`)

Reactive data: `cart`, `checkoutForm` (name/email/address), `validationErrors`,
`checkoutSuccess`, `isSubmitting`.  `submitCheckout` guards on `isSubmitting`,
validates, then schedules a 2-second timer; the timer callback runs
`processCheckout`, flips the flags, resets the form and raises the success
alert.  The timer callback is modelled as its own transition
(`checkoutTimerFire`); the Boolean returned by `submitCheckout` records
whether the timer was scheduled. -/

/-- The cart page's checkout form. -/
structure CheckoutForm where
  name : String
  email : String
  address : String
deriving DecidableEq

/-- `validationErrors`: at most one message per form field, keyed by the
field name (the object's keys are exactly the failing fields). -/
structure ValidationErrors where
  name : Option String := none
  email : Option String := none
  address : Option String := none
deriving DecidableEq

/-- Model of `String.prototype.trim` (defined structurally on the character
list so that it evaluates inside the kernel). -/
def jsTrim (s : String) : String :=
  String.mk (((s.toList.dropWhile Char.isWhitespace).reverse.dropWhile
    Char.isWhitespace).reverse)

/-- The character class complementing the regex class: a character matches
the regex class when it is neither whitespace nor the at sign. -/
def emailCharOk (c : Char) : Bool := !c.isWhitespace && c ≠ '@'

/-- Split a character list around its first at sign, when one occurs. -/
def splitFirstAt : List Char → Option (List Char × List Char)
  | [] => none
  | c :: cs =>
    if c = '@' then some ([], cs)
    else
      match splitFirstAt cs with
      | some (l, r) => some (c :: l, r)
      | none => none

/-- Model of the email check: the whole string matches the anchored regex
exactly when it splits as `local@domain` with a nonempty `local` free of
whitespace and at signs, a `domain` free of whitespace and at signs, and a
dot inside `domain` with at least one character on each side (the matched
dot position; surrounding characters may themselves be dots, which the
regex class admits). -/
def emailTest (s : String) : Bool :=
  match splitFirstAt s.toList with
  | none => false
  | some (locPart, domPart) =>
    !locPart.isEmpty && locPart.all emailCharOk &&
    domPart.all emailCharOk && ((domPart.drop 1).dropLast.contains '.')

/-- The name check of `validateCheckoutForm`: `!name.trim()` then a minimum
length of 2 on the trimmed name. -/
def nameError (f : CheckoutForm) : Option String :=
  if jsTrim f.name = "" then some "Name is required"
  else if (jsTrim f.name).length < 2 then some "Name must be at least 2 characters"
  else none

/-- The email check of `validateCheckoutForm`: `!email.trim()` then the
regex test on the untrimmed email. -/
def emailError (f : CheckoutForm) : Option String :=
  if jsTrim f.email = "" then some "Email is required"
  else if !emailTest f.email then some "Please enter a valid email address"
  else none

/-- The address check of `validateCheckoutForm`: `!address.trim()` then a
minimum length of 10 on the trimmed address. -/
def addressError (f : CheckoutForm) : Option String :=
  if jsTrim f.address = "" then some "Address is required"
  else if (jsTrim f.address).length < 10 then some "Address must be at least 10 characters"
  else none

/-- `validateCheckoutForm()`: resets `validationErrors`, records one message
per failing field (the three checks above, in source order), and returns
whether everything passed (`isValid` is exactly the absence of all three
errors). -/
def validateCheckoutForm (f : CheckoutForm) : ValidationErrors × Bool :=
  ({ name := nameError f, email := emailError f, address := addressError f },
    (nameError f).isNone && (emailError f).isNone && (addressError f).isNone)

/-- The reactive `data` of the cart page. -/
structure CartPageState where
  cart : List CartItem
  checkoutForm : CheckoutForm
  validationErrors : ValidationErrors
  checkoutSuccess : Bool
  isSubmitting : Bool
deriving DecidableEq

/-- The order record persisted under the `lastOrder` key: `Date.now()` and
`new Date().toISOString()` are environment inputs, passed in as `now` and
`date`. -/
structure Order where
  id : Int
  customer : CheckoutForm
  items : List CartItem
  total : Option ℚ
  date : String
deriving DecidableEq

/-- `processCheckout()`: builds the order (with the cart total computed
before anything is cleared), persists it, clears the cart and saves the now
empty cart.  The returned `Order` is the value written to the store. -/
def processCheckout (st : CartPageState) (now : Int) (date : String) :
    CartPageState × Order :=
  let order : Order :=
    { id := now, customer := st.checkoutForm, items := st.cart,
      total := total st.cart, date := date }
  ({ st with cart := [] }, order)

/-- `submitCheckout()` up to the point where the 2-second timer is
scheduled: a no-op while a submission is in flight, an abort (with the
errors recorded) when validation fails, and otherwise flag updates plus a
scheduled timer (the returned Boolean). -/
def submitCheckout (st : CartPageState) : CartPageState × Bool :=
  if st.isSubmitting then (st, false)
  else
    let (errs, valid) := validateCheckoutForm st.checkoutForm
    if !valid then ({ st with validationErrors := errs }, false)
    else
      ({ st with
          validationErrors := errs
          isSubmitting := true
          checkoutSuccess := false }, true)

/-- The timer callback of `submitCheckout`: runs `processCheckout`, sets the
success flag, clears the in-flight flag, resets the form and the errors, and
only then builds the alert message from `this.checkoutForm.name ||
'Customer'` — reading the just-reset form. -/
def checkoutTimerFire (st : CartPageState) (now : Int) (date : String) :
    CartPageState × Order × String :=
  let (st1, order) := processCheckout st now date
  let st2 : CartPageState :=
    { st1 with checkoutSuccess := true, isSubmitting := false,
               checkoutForm := { name := "", email := "", address := "" },
               validationErrors := {} }
  let msg := "Checkout successful! Thank you for your purchase, "
      ++ (if st2.checkoutForm.name = "" then "Customer" else st2.checkoutForm.name) ++ "!"
  (st2, order, msg)

/-! ### Cart loading (`loadCart` in `src/cart.js` and `src/checkout.js`)

`loadCart()` reads the `classCart` key and, when the value is truthy, assigns
`JSON.parse(value)` to `this.cart`.  The external store and the JSON codec
are abstracted into the four observable cases: key absent (`getItem` returns
`null`, falsy), empty string (falsy — `JSON.parse` never runs), a value that
deserializes to a cart array, and a corrupt value on which `JSON.parse`
throws a `SyntaxError`.  There is no `try`/`catch` in either file, so the
exception propagates out of `loadCart`. -/

/-- What the store returns for the `classCart` key, as seen through
`JSON.parse`. -/
inductive StoredCart
  | absent
  | emptyString
  | wellFormed (c : List CartItem)
  | corrupt
deriving DecidableEq

/-- The exception a cart-load can raise. -/
inductive JsError
  | jsonSyntaxError
deriving DecidableEq

/-- `loadCart()`, identical in `src/cart.js` and `src/checkout.js` (modelled
on the cart-page state; the checkout page differs only in the record's other
fields, which `loadCart` does not touch). -/
def loadCart (st : CartPageState) : StoredCart → Except JsError CartPageState
  | .absent => .ok st
  | .emptyString => .ok st
  | .wellFormed c => .ok { st with cart := c }
  | .corrupt => .error .jsonSyntaxError

/-! ### The checkout page (`src/checkout.js`) -/

/-- The checkout page's form: five required fields. -/
structure CheckoutPageForm where
  name : String
  email : String
  phone : String
  address : String
  payment : String
deriving DecidableEq

/-- The observable outcome of `completeOrder()`: a single generic validation
alert, an empty-cart alert, or the confirmation (whose alert interpolates
the name, email, total and payment). -/
inductive CompleteOrderResult
  | validationAlert (msg : String)
  | emptyCartAlert (msg : String)
  | completed (customerName customerEmail : String) (orderTotal : Option ℚ) (payment : String)
deriving DecidableEq

/-- `completeOrder()` of the checkout page: one generic alert when any
required field is empty (falsy), an alert and redirect when the cart is
empty, and otherwise the confirmation alert plus cart-key removal. -/
def completeOrder (cart : List CartItem) (f : CheckoutPageForm) : CompleteOrderResult :=
  if f.name = "" ∨ f.email = "" ∨ f.phone = "" ∨ f.address = "" ∨ f.payment = "" then
    .validationAlert "Please fill in all required fields"
  else if cart.length = 0 then
    .emptyCartAlert "Your cart is empty. Please add some items first."
  else
    .completed f.name f.email (total cart) f.payment

/-! ### The two-page world used by the checkout-effect claim

`src/cart.js` contains no reference to the catalog page's `products`; the
catalog instance is a separate Vue app on another document.  Completing a
checkout therefore passes the catalog state through untouched, which is the
code-level content of capacity not being restored. -/

/-- The catalog page's state next to the cart page's state. -/
structure World where
  catalog : AppState
  cartPage : CartPageState
deriving DecidableEq

/-- Fire the checkout timer inside the two-page world. -/
def worldCheckoutFire (w : World) (now : Int) (date : String) :
    World × Order × String :=
  let (st2, order, msg) := checkoutTimerFire w.cartPage now date
  ({ catalog := w.catalog, cartPage := st2 }, order, msg)

/-! ### Claims C6 to C10 -/

/-- The catalog state after requesting two spaces of product 1 and adding
them to the cart: spaces 10 down to 8, one cart entry of quantity 2. -/
def c6Catalog : AppState := run [CartAction.setQty 0 2, CartAction.add 0] initState

/-- The cart page entered for the C6 checkout: the cart produced above and a
fully filled form. -/
def c6CartPage : CartPageState :=
  { cart := c6Catalog.cart,
    checkoutForm := { name := "Jane Doe", email := "jane@example.com",
                      address := "12 High Street, London" },
    validationErrors := {}, checkoutSuccess := false, isSubmitting := false }

/-- Claim C6: with the cart holding two spaces of the £88.99 item and a
fully filled form, submitting schedules the checkout, the persisted order's
total equals 177.98 — as doubles: the stored value is the binary64 meaning
of the literal 177.98, which is what `order.total === 177.98` compares
against in JavaScript (the doubling of the parsed 88.99 is an exact exponent
shift, so no precision is lost) — the cart is empty immediately afterwards,
and the catalog's remaining capacity for id 1 stays at 8: it is not restored
to the seeded 10. -/
theorem checkout_example_effect :
    (submitCheckout c6CartPage).2 = true ∧
    (worldCheckoutFire { catalog := c6Catalog, cartPage := (submitCheckout c6CartPage).1 }
        1700000000000 "2023-11-14T22:13:20.000Z").2.1.total
      = some (roundDouble ((17798 : ℚ) / 100)) ∧
    (worldCheckoutFire { catalog := c6Catalog, cartPage := (submitCheckout c6CartPage).1 }
        1700000000000 "2023-11-14T22:13:20.000Z").1.cartPage.cart = [] ∧
    ((worldCheckoutFire { catalog := c6Catalog, cartPage := (submitCheckout c6CartPage).1 }
        1700000000000 "2023-11-14T22:13:20.000Z").1.catalog.products.find?
          (fun p => p.id == 1)).map Product.spaces = some 8 ∧
    origCapacity 1 = 10 := by
  refine ⟨rfl, ?_, rfl, rfl, rfl⟩
  with_unfolding_all rfl

/-- Claim C7, counterexample: on the checkout page, a form whose only empty
required field is the email produces the single generic alert, not a
distinct failure keyed "email" — `completeOrder` has no per-field reporting
at all, refuting the claim over the cited code. -/
theorem completeOrder_generic_error_cex :
    completeOrder [demoEntryA]
      { name := "Ada Lovelace", email := "", phone := "07700900000",
        address := "5 Long Road, York", payment := "card" }
      = CompleteOrderResult.validationAlert "Please fill in all required fields" := rfl

/-- A cart-page form whose only defect is the empty email. -/
def c7EmptyEmailForm : CheckoutForm :=
  { name := "Alice", email := "", address := "22 Acacia Avenue, Leeds" }

theorem errs_all_none_iff (a b c : Option String) :
    (a.isNone && b.isNone && c.isNone) = true ↔
    ({ name := a, email := b, address := c } : ValidationErrors) = {} := by
  cases a <;> cases b <;> cases c <;>
    simp [ValidationErrors.mk.injEq]

/-- Claim C7 as amended: on the cart page, `validateCheckoutForm` reports
per-field failures — it passes exactly when no field has an error, and a
form whose only defect is an empty email yields exactly one failure, keyed
`email`; `submitCheckout` then aborts with the cart untouched and no timer
scheduled.  On the checkout page, however, `completeOrder` reports the
single generic message for any missing field (shown for an empty email). -/
theorem cartpage_validation_per_field :
    (∀ f : CheckoutForm,
      (validateCheckoutForm f).2 = true ↔ (validateCheckoutForm f).1 = {}) ∧
    (∀ (cart : List CartItem) (errs0 : ValidationErrors) (succ0 : Bool),
      (validateCheckoutForm c7EmptyEmailForm).1
        = { name := none, email := some "Email is required", address := none } ∧
      (validateCheckoutForm c7EmptyEmailForm).2 = false ∧
      submitCheckout
          { cart := cart, checkoutForm := c7EmptyEmailForm,
            validationErrors := errs0, checkoutSuccess := succ0, isSubmitting := false }
        = ({ cart := cart, checkoutForm := c7EmptyEmailForm,
             validationErrors :=
               { name := none, email := some "Email is required", address := none },
             checkoutSuccess := succ0, isSubmitting := false }, false)) ∧
    (∀ (cart : List CartItem) (f : CheckoutPageForm), f.email = "" →
      completeOrder cart f
        = CompleteOrderResult.validationAlert "Please fill in all required fields") := by
  refine ⟨?_, ?_, ?_⟩
  · intro f
    exact errs_all_none_iff (nameError f) (emailError f) (addressError f)
  · intro cart errs0 succ0
    exact ⟨rfl, rfl, rfl⟩
  · intro cart f he
    unfold completeOrder
    rw [if_pos (Or.inr (Or.inl he))]

/-- Witness for the amended C7 at a concrete checkout-page form with an
empty email. -/
theorem cartpage_validation_per_field_witness :
    ({ name := "Ada Lovelace", email := "", phone := "07700900000",
        address := "5 Long Road, York", payment := "card" } : CheckoutPageForm).email = "" ∧
    completeOrder [demoEntryB]
      { name := "Ada Lovelace", email := "", phone := "07700900000",
        address := "5 Long Road, York", payment := "card" }
      = CompleteOrderResult.validationAlert "Please fill in all required fields" :=
  ⟨rfl, cartpage_validation_per_field.2.2 [demoEntryB]
    { name := "Ada Lovelace", email := "", phone := "07700900000",
      address := "5 Long Road, York", payment := "card" } rfl⟩

/-- Claim C8: while a submission is in flight (the artificial 2-second
delay), a second `submitCheckout` call is a rejected no-op — the state is
returned unchanged (no validation ran, nothing was mutated) and no second
timer (no second order) is scheduled. -/
theorem submit_inflight_guard (st : CartPageState) (h : st.isSubmitting = true) :
    submitCheckout st = (st, false) := by
  unfold submitCheckout
  rw [if_pos h]

/-- An in-flight cart-page state used by the C8 witness. -/
def c8State : CartPageState :=
  { cart := [demoEntryA],
    checkoutForm := { name := "Jane Doe", email := "jane@example.com",
                      address := "12 High Street, London" },
    validationErrors := {}, checkoutSuccess := false, isSubmitting := true }

/-- Witness for C8 at a concrete in-flight state. -/
theorem submit_inflight_guard_witness :
    c8State.isSubmitting = true ∧ submitCheckout c8State = (c8State, false) :=
  ⟨rfl, submit_inflight_guard c8State rfl⟩

/-- The cart page as initialised on load (`data`): empty cart, empty form. -/
def initialCartPage : CartPageState :=
  { cart := [], checkoutForm := { name := "", email := "", address := "" },
    validationErrors := {}, checkoutSuccess := false, isSubmitting := false }

/-- Claim C9, counterexample: on corrupt (non-deserializable) stored data
the cart-load does not complete with an empty cart as a handled safe
default — `JSON.parse` throws and the exception propagates out of
`loadCart`, which contains no `try`/`catch`. -/
theorem loadCart_corrupt_raises_cex :
    loadCart initialCartPage StoredCart.corrupt = Except.error JsError.jsonSyntaxError := rfl

/-- Claim C9 as amended: an absent or empty stored value leaves the cart
exactly as initialised (empty on page load) and completes normally; a
well-formed value replaces the cart; corrupt data makes `loadCart` raise
`JSON.parse`'s SyntaxError (leaving the in-memory cart unchanged only
because the assignment never ran — the no-crash observed in the browser is
the framework's doing, not this code's). -/
theorem loadCart_read_behavior :
    ∀ st : CartPageState,
      loadCart st StoredCart.absent = Except.ok st ∧
      loadCart st StoredCart.emptyString = Except.ok st ∧
      (∀ c : List CartItem,
        loadCart st (StoredCart.wellFormed c) = Except.ok { st with cart := c }) ∧
      loadCart st StoredCart.corrupt = Except.error JsError.jsonSyntaxError :=
  fun st => ⟨rfl, rfl, fun c => rfl, rfl⟩

/-- Claim C10: the success alert raised by the checkout timer always falls
back to the literal "Customer" and never contains the customer's entered
name — the form is reset to empty strings before the template reads
`this.checkoutForm.name`, so the message is one constant string for every
form input. -/
theorem success_message_constant (st : CartPageState) (now : Int) (date : String) :
    (checkoutTimerFire st now date).2.2
      = "Checkout successful! Thank you for your purchase, Customer!" := rfl
